import Mathlib

/-!
Verification development for the event-emitter-decorators repository.

The core registry/dispatch engine (`EventEmitterMixin` in src/EventEmitter.js)
is shallowly embedded as a fuel-indexed interpreter over an explicit emitter
state.  Listener callables are defunctionalised: a plain callable `Fn.fn id`
behaves according to an environment mapping `id` to a list of registry
actions it performs when invoked; the closures created by
`#addLimitedListener` are modelled as `Fn.wrapper wid` with their captured
mutable `count` stored in the emitter state.  Asynchronous promise-rejection
capture (the `captureRejections` branch of `#emit`) has no synchronous
observable effect and is not modelled; all claims treated here concern the
synchronous behaviour only.

The declarative wiring resolver (`_registerPendingListener` /
`_applyPendingListeners` and the `on` decorator of src/decorators.js) is
embedded separately over a small object world, and the capability gate
(`assertCanRegister` / `assertCanEmit` / `assertIsEmitter`) over an
object-shape record.
-/

namespace EESpec

/-- Event keys: textual names or the unique `errorMonitor` token
(`EventEmitter.errorMonitor = Symbol("errorMonitor")`). -/
inductive EventKey where
  | str : String → EventKey
  | errorMonitor : EventKey
deriving DecidableEq, Repr

/-- Callable identities.  `fn id` is a user-supplied listener whose behaviour
is given by the environment; `wrapper wid` is the `limitedWrapped` closure
created by `#addLimitedListener`, identified by creation order. -/
inductive Fn where
  | fn : Nat → Fn
  | wrapper : Nat → Fn
deriving DecidableEq, Repr

/-- Values passed as event arguments: keys, callables, booleans and error
values (errors are identified by a numeric id). -/
inductive Val where
  | k : EventKey → Val
  | f : Fn → Val
  | b : Bool → Val
  | e : Nat → Val
deriving DecidableEq, Repr

/-- A subscription list: the array stored in `#events`, together with its
`warned` expando flag. -/
structure EvList where
  entries : List Fn
  warned : Bool
deriving DecidableEq, Repr

/-- State of one `limitedWrapped` closure: the captured mutable `count`,
the captured event `type`, and the wrapped original listener. -/
structure Wrap where
  count : Int
  ty : EventKey
  inner : Fn
deriving DecidableEq, Repr

/-- Observable side effects: listener invocations (`listener.apply`) and the
`MaxListenersExceededWarning` diagnostic printed by `console.warn`. -/
inductive TEv where
  | call : Fn → EventKey → List Val → TEv
  | warnMax : EventKey → Nat → TEv
deriving DecidableEq, Repr

/-- Per-instance emitter state: the `#events` map (insertion-ordered),
`#mxListeners`, `#captureRejections`, the `#onceRegistry` WeakMap, the states
of all `limitedWrapped` closures created so far, a fresh-id counter for them,
and the trace of observable effects. -/
structure EmState where
  events : List (EventKey × EvList)
  mxListeners : Option Int
  captureRejections : Bool
  onceRegistry : List (Fn × Fn)
  wrappers : List (Nat × Wrap)
  nextW : Nat
  trace : List TEv
deriving DecidableEq, Repr

/-- Models `Map.prototype.get`. -/
def mget (m : List (EventKey × EvList)) (k : EventKey) : Option EvList :=
  (m.find? (fun p => p.1 == k)).map (·.2)

/-- Models `Map.prototype.set`: updates in place, preserving insertion order,
appending if absent. -/
def mset (m : List (EventKey × EvList)) (k : EventKey) (v : EvList) :
    List (EventKey × EvList) :=
  match m with
  | [] => [(k, v)]
  | (k', v') :: rest =>
      if k' == k then (k, v) :: rest else (k', v') :: mset rest k v

/-- Models `Map.prototype.delete`. -/
def mdel (m : List (EventKey × EvList)) (k : EventKey) :
    List (EventKey × EvList) :=
  m.filter (fun p => ¬ p.1 == k)

/-- Models `Map.prototype.has`. -/
def mhas (m : List (EventKey × EvList)) (k : EventKey) : Bool :=
  (mget m k).isSome

/-- Lookup in the wrapper-state table. -/
def wget (ws : List (Nat × Wrap)) (wid : Nat) : Option Wrap :=
  (ws.find? (fun p => p.1 == wid)).map (·.2)

/-- Update in the wrapper-state table. -/
def wset (ws : List (Nat × Wrap)) (wid : Nat) (w : Wrap) : List (Nat × Wrap) :=
  match ws with
  | [] => [(wid, w)]
  | (i, w') :: rest =>
      if i == wid then (wid, w) :: rest else (i, w') :: wset rest wid w

/-- Models `WeakMap.prototype.get` on `#onceRegistry`. -/
def rget (reg : List (Fn × Fn)) (f : Fn) : Option Fn :=
  (reg.find? (fun p => p.1 == f)).map (·.2)

/-- Models `WeakMap.prototype.delete` on `#onceRegistry`. -/
def rdel (reg : List (Fn × Fn)) (f : Fn) : List (Fn × Fn) :=
  reg.filter (fun p => ¬ p.1 == f)

/-- What a user listener does when invoked: register further listeners,
remove listeners, or throw.  These are exactly the registry operations the
claims quantify over (nested top-level `emit` calls from listeners are not
needed by any claim). -/
inductive Action where
  | onA : EventKey → Fn → Action
  | prependA : EventKey → Fn → Action
  | onceA : EventKey → Fn → Action
  | limitedA : EventKey → Fn → Int → Action
  | removeA : EventKey → Fn → Action
  | throwA : Nat → Action
deriving DecidableEq, Repr

/-- Listener environment: behaviour of user callable `Fn.fn id` is
`behOf env id`. -/
def Env : Type := List (List Action)

/-- Behaviour lookup; an id outside the environment does nothing. -/
def behOf (env : Env) (id : Nat) : List Action :=
  (List.get? env id).getD []

/-- Outcome of a stateful operation: normal completion, a propagating thrown
error (carrying the state at the throw, since mutations persist), or fuel
exhaustion (an artefact of the embedding, not of the program). -/
inductive Res (α : Type) where
  | ok : α → Res α
  | thrown : Nat → EmState → Res α
  | fuelOut : Res α
deriving DecidableEq, Repr

/-- Models `this.maxListeners` getter: `#mxListeners ?? defaultMaxListeners` with the
class default `10`. -/
def getMax (s : EmState) : Int :=
  s.mxListeners.getD 10

/-- The pure tail of `#addListener` after the `newListener` emit: ensure the
list exists, push or unshift the listener, then perform the soft-limit
warning check (`max > 0 && existing.length > max && !existing.warned`). -/
def pushListener (s : EmState) (ty : EventKey) (f : Fn) (pre : Bool) :
    EmState :=
  let m0 := if mhas s.events ty then s.events else mset s.events ty ⟨[], false⟩
  let l := (mget m0 ty).getD ⟨[], false⟩
  let l1 : EvList := ⟨if pre then f :: l.entries else l.entries ++ [f], l.warned⟩
  let mx := getMax s
  if mx > 0 ∧ (l1.entries.length : Int) > mx ∧ l1.warned = false then
    { s with events := mset m0 ty ⟨l1.entries, true⟩,
             trace := s.trace ++ [TEv.warnMax ty l1.entries.length] }
  else
    { s with events := mset m0 ty l1 }

/-- The pure removal step of `#removeListener` once a list exists, for a
listener `f1` already resolved through `#onceRegistry`: `indexOf`/`splice` of
the first matching entry, deleting the key if the list becomes empty. -/
def eraseStep (s : EmState) (ty : EventKey) (f1 : Fn) : EmState :=
  match mget s.events ty with
  | none => s
  | some l =>
      if l.entries.contains f1 then
        let entries1 := l.entries.erase f1
        if entries1.isEmpty then { s with events := mdel s.events ty }
        else { s with events := mset s.events ty ⟨entries1, l.warned⟩ }
      else s

/-- The `#onceRegistry` resolution step of `#removeListener`: if the registry
has the listener, replace it by the registered original and delete the
*resolved* key from the registry (a quirk of the source, which deletes after
reassigning `listener`). -/
def resolveStep (s : EmState) (f : Fn) : EmState × Fn :=
  match rget s.onceRegistry f with
  | some orig => ({ s with onceRegistry := rdel s.onceRegistry orig }, orig)
  | none => (s, f)

/-- The seven mutually recursive operations of the engine, at one fuel
level.  `loopI` additionally returns the list of snapshot entries its own
loop applied, in order (instrumentation used to state the snapshot claims;
the source discards this information). -/
structure Interp where
  emitI : EmState → EventKey → List Val → Res (EmState × Bool)
  loopI : EmState → EventKey → List Val → List Fn → Res (EmState × List Fn)
  applyI : EmState → Fn → EventKey → List Val → Res EmState
  actsI : EmState → List Action → Res EmState
  addI : EmState → EventKey → Fn → Bool → Res EmState
  addLimI : EmState → EventKey → Fn → Int → Bool → Res EmState
  removeI : EmState → EventKey → Fn → Res EmState

/-- The interpreter, by structural recursion on fuel.  Every recursive call
(including structural loops) steps down one fuel level, so exhaustion only
means the supplied fuel was too small, never divergence of the model.

`emitI` is `#emit`: absent list → `false` with no effect; otherwise iterate a
snapshot (`listeners.slice()`), catching a synchronous throw from each
listener: redirect to `"error"` if it has a list, else raise the
`errorMonitor` key (if it has a list) and re-throw the original error.

`applyI` is `listener.apply`: it records the invocation, then either runs the
user behaviour or executes the `limitedWrapped` closure body
(`if (--count < 1) this.removeListener(type, limitedWrapped); return
listener.apply(this, args)`).

`addI` is `#addListener`: emit `newListener` *before* inserting, then
`pushListener`.  `addLimI` is `#addLimitedListener`: create the wrapper
closure and add it; note that it never writes to `#onceRegistry`.
`removeI` is `#removeListener`: resolve through `#onceRegistry`, erase the
first match, then emit `removeListener` unconditionally (the source emits it
whenever a list existed for the key, found or not). -/
def interp (env : Env) : Nat → Interp
  | 0 =>
      ⟨fun _ _ _ => .fuelOut, fun _ _ _ _ => .fuelOut, fun _ _ _ _ => .fuelOut,
       fun _ _ => .fuelOut, fun _ _ _ _ => .fuelOut, fun _ _ _ _ _ => .fuelOut,
       fun _ _ _ => .fuelOut⟩
  | n + 1 =>
      let I := interp env n
      { emitI := fun s ty args =>
          match mget s.events ty with
          | none => .ok (s, false)
          | some l =>
              match I.loopI s ty args l.entries with
              | .ok (s1, _) => .ok (s1, true)
              | .thrown e s1 => .thrown e s1
              | .fuelOut => .fuelOut
        loopI := fun s ty args entries =>
          match entries with
          | [] => .ok (s, [])
          | f :: rest =>
              match I.applyI s f ty args with
              | .ok s1 =>
                  match I.loopI s1 ty args rest with
                  | .ok (s2, ap) => .ok (s2, f :: ap)
                  | .thrown e s2 => .thrown e s2
                  | .fuelOut => .fuelOut
              | .thrown e s1 =>
                  if mhas s1.events (.str "error") then
                    match I.emitI s1 (.str "error") [.e e] with
                    | .ok (s2, _) =>
                        match I.loopI s2 ty args rest with
                        | .ok (s3, ap) => .ok (s3, f :: ap)
                        | .thrown e2 s3 => .thrown e2 s3
                        | .fuelOut => .fuelOut
                    | .thrown e2 s2 => .thrown e2 s2
                    | .fuelOut => .fuelOut
                  else if mhas s1.events .errorMonitor then
                    match I.emitI s1 .errorMonitor [.e e] with
                    | .ok (s2, _) => .thrown e s2
                    | .thrown e2 s2 => .thrown e2 s2
                    | .fuelOut => .fuelOut
                  else .thrown e s1
              | .fuelOut => .fuelOut
        applyI := fun s f ty args =>
          let s0 := { s with trace := s.trace ++ [TEv.call f ty args] }
          match f with
          | .fn id => I.actsI s0 (behOf env id)
          | .wrapper wid =>
              match wget s0.wrappers wid with
              | none => .ok s0
              | some w =>
                  let c := w.count - 1
                  let s1 := { s0 with
                    wrappers := wset s0.wrappers wid ⟨c, w.ty, w.inner⟩ }
                  if c < 1 then
                    match I.removeI s1 w.ty (.wrapper wid) with
                    | .ok s2 => I.applyI s2 w.inner ty args
                    | .thrown e s2 => .thrown e s2
                    | .fuelOut => .fuelOut
                  else I.applyI s1 w.inner ty args
        actsI := fun s acts =>
          match acts with
          | [] => .ok s
          | a :: rest =>
              let r : Res EmState :=
                match a with
                | .onA k f => I.addI s k f false
                | .prependA k f => I.addI s k f true
                | .onceA k f => I.addLimI s k f 1 false
                | .limitedA k f c => I.addLimI s k f c false
                | .removeA k f => I.removeI s k f
                | .throwA e => .thrown e s
              match r with
              | .ok s1 => I.actsI s1 rest
              | .thrown e s1 => .thrown e s1
              | .fuelOut => .fuelOut
        addI := fun s ty f pre =>
          match I.emitI s (.str "newListener") [.k ty, .f f, .b pre] with
          | .ok (s1, _) => .ok (pushListener s1 ty f pre)
          | .thrown e s1 => .thrown e s1
          | .fuelOut => .fuelOut
        addLimI := fun s ty f count pre =>
          let wid := s.nextW
          let s1 := { s with wrappers := s.wrappers ++ [(wid, ⟨count, ty, f⟩)],
                             nextW := wid + 1 }
          I.addI s1 ty (.wrapper wid) pre
        removeI := fun s ty f =>
          match mget s.events ty with
          | none => .ok s
          | some _ =>
              let p := resolveStep s f
              let s2 := eraseStep p.1 ty p.2
              match I.emitI s2 (.str "removeListener") [.k ty, .f p.2] with
              | .ok (s3, _) => .ok s3
              | .thrown e s3 => .thrown e s3
              | .fuelOut => .fuelOut }

/-- Models `emit(type, ...args)` / `#emit`. -/
def emitF (env : Env) (fuel : Nat) (s : EmState) (ty : EventKey)
    (args : List Val) : Res (EmState × Bool) :=
  (interp env fuel).emitI s ty args

/-- The dispatch loop of `#emit` over a snapshot, returning the entries it
applied. -/
def loopF (env : Env) (fuel : Nat) (s : EmState) (ty : EventKey)
    (args : List Val) (entries : List Fn) : Res (EmState × List Fn) :=
  (interp env fuel).loopI s ty args entries

/-- One listener invocation (`listener.apply(this, args)`). -/
def applyFnF (env : Env) (fuel : Nat) (s : EmState) (f : Fn) (ty : EventKey)
    (args : List Val) : Res EmState :=
  (interp env fuel).applyI s f ty args

/-- Run a user behaviour, action by action. -/
def runActionsF (env : Env) (fuel : Nat) (s : EmState) (acts : List Action) :
    Res EmState :=
  (interp env fuel).actsI s acts

/-- Models `on` / `addListener` / `prependListener` (`#addListener`). -/
def addListenerF (env : Env) (fuel : Nat) (s : EmState) (ty : EventKey)
    (f : Fn) (pre : Bool) : Res EmState :=
  (interp env fuel).addI s ty f pre

/-- Models `once` / `limited` / `prependOnceListener` (`#addLimitedListener`). -/
def addLimitedF (env : Env) (fuel : Nat) (s : EmState) (ty : EventKey)
    (f : Fn) (count : Int) (pre : Bool) : Res EmState :=
  (interp env fuel).addLimI s ty f count pre

/-- Models `removeListener` / `off` (`#removeListener`). -/
def removeListenerF (env : Env) (fuel : Nat) (s : EmState) (ty : EventKey)
    (f : Fn) : Res EmState :=
  (interp env fuel).removeI s ty f

/-- The fresh state of the private fields of a new instance. -/
def initState : EmState :=
  ⟨[], none, false, [], [], 0, []⟩

/-- The recognised constructor options
`{ captureRejections: boolean, maxListeners: number }`. -/
structure EmOptions where
  captureRejections : Option Bool := none
  maxListeners : Option Int := none
deriving DecidableEq, Repr

/-- The constructor: `if (args[0]?.captureRejections) ...;
if (args[0]?.maxListeners) this.#mxListeners = args[0].maxListeners;` —
both guarded by JavaScript truthiness, so `false` and `0` leave the private
fields unset. -/
def constructorF (opts : Option EmOptions) : EmState :=
  let s := initState
  let s1 :=
    match opts with
    | some o =>
        match o.captureRejections with
        | some true => { s with captureRejections := true }
        | _ => s
    | none => s
  match opts with
  | some o =>
      match o.maxListeners with
      | some m => if m ≠ 0 then { s1 with mxListeners := some m } else s1
      | none => s1
  | none => s1

/-- Models `getMaxListeners()`. -/
def getMaxListenersF (s : EmState) : Int :=
  getMax s

/-- Models `setMaxListeners(max)` (state part; the method returns `this`). -/
def setMaxListenersF (s : EmState) (m : Int) : EmState :=
  { s with mxListeners := some m }

/-- Models `eventNames()`. -/
def eventNamesF (s : EmState) : List EventKey :=
  s.events.map (·.1)

/-- Models `listenerCount(type, listener?)`. -/
def listenerCountF (s : EmState) (ty : EventKey) (f : Option Fn) : Nat :=
  match mget s.events ty with
  | none => 0
  | some l =>
      match f with
      | some g => (l.entries.filter (fun x => x == g)).length
      | none => l.entries.length

/-- The runtime error raised by accessing a property of `undefined`. -/
inductive JsErr where
  | typeError
deriving DecidableEq, Repr

/-- Models `rawListeners(type)`: the source is
`return this.#events.get(type).slice() ?? [];` — when no list exists,
`.slice()` is read off `undefined` and a `TypeError` is thrown; the `?? []`
comes after the member access and is dead code. -/
def rawListenersF (s : EmState) (ty : EventKey) : Except JsErr (List Fn) :=
  match mget s.events ty with
  | none => .error .typeError
  | some l => .ok l.entries

/-- Models `listeners(type)`: maps each stored entry through `#onceRegistry`. -/
def listenersF (s : EmState) (ty : EventKey) : List Fn :=
  match mget s.events ty with
  | none => []
  | some l => l.entries.map (fun f => (rget s.onceRegistry f).getD f)

/-- Number of invocations of `f` recorded in the trace of `s`. -/
def traceCalls (s : EmState) (f : Fn) : Nat :=
  (s.trace.filter (fun t =>
    match t with
    | .call g _ _ => g == f
    | .warnMax _ _ => false)).length

end EESpec

namespace EEGate

/-!
The identity and capability gate of src/decorators.js (`unnamed/part_000`,
the current version of the decorator module): `assertCanRegister`,
`assertCanEmit`, `assertIsEmitter`.  An object is modelled by the features
those functions probe: whether it passes `instanceof EventEmitter`
(`Symbol.hasInstance`: a node `events` emitter or an object carrying
`EventEmitter.symbol`), and which duck-typed methods it exposes.  An absent
(`undefined`/`null`) argument is `Option.none`.
-/

/-- Shape of an object as probed by the assertions. -/
structure GObj where
  isInstance : Bool
  hasOn : Bool
  hasAddListener : Bool
  hasAddEventListener : Bool
  hasEmit : Bool
  hasDispatchEvent : Bool
deriving DecidableEq, Repr

/-- The errors the assertions can throw (identified by their messages, with
the offending object carried as `cause` where the source attaches one). -/
inductive AssertErr where
  | notDefined
  | notAnEmitter
  | doesNotEmit
deriving DecidableEq, Repr

/-- JavaScript return values of the assertions: the literal `true`, or
`undefined` for a function that falls off its end. -/
inductive JsRet where
  | tru
  | undef
deriving DecidableEq, Repr

/-- Models `assertCanRegister(object)`. -/
def assertCanRegister (o : Option GObj) : Except AssertErr JsRet :=
  match o with
  | none => .error .notDefined
  | some x =>
      if x.isInstance then .ok .tru
      else if x.hasOn || x.hasAddListener || x.hasAddEventListener then .ok .tru
      else .error .notAnEmitter

/-- Models `assertCanEmit(object)`. -/
def assertCanEmit (o : Option GObj) : Except AssertErr JsRet :=
  match o with
  | none => .error .notDefined
  | some x =>
      if x.isInstance then .ok .tru
      else if x.hasEmit || x.hasDispatchEvent then .ok .tru
      else .error .doesNotEmit

/-- Models `assertIsEmitter(object)`: runs `assertCanEmit` then `assertCanRegister`
and returns nothing (`undefined`) when both pass. -/
def assertIsEmitter (o : Option GObj) : Except AssertErr JsRet :=
  match assertCanEmit o with
  | .error e => .error e
  | .ok _ =>
      match assertCanRegister o with
      | .error e => .error e
      | .ok _ => .ok .undef

end EEGate

namespace EEWire

/-!
The wiring resolver of src/decorators.js: `_registerPendingListener` and
`_applyPendingListeners`, together with the construction-time initializers
installed by the `on` decorator for dotted event paths.

Objects live in a world indexed by numeric identity.  Each object carries its
named properties, whether it exposes a listener-registration surface
(`on`/`addListener`/`addEventListener`, and `once` for one-time attachment),
and its pending-listener queue — the `Set` stored under
`[Symbol.metadata][EventEmitter.symbol].pendingListeners`.  In the source
that metadata object is attached to the class and shared by its instances;
this embedding stores the queue on the object itself, which coincides with
the source whenever each wired class has a single instance (as in all
scenarios below).  JavaScript `Set.add` of a freshly built entry object never
deduplicates, so the queue is a plain append-only list, and the source never
deletes entries from it.  Successful attachment is recorded in a world-level
attachment log standing for the calls made to the target's registration
method. -/

/-- One queued entry `{ target, event, listener, once }`. -/
structure PendingEntry where
  target : String
  event : String
  listener : Nat
  once : Bool
deriving DecidableEq, Repr

/-- An object: named properties (values that are objects, by id), whether it
can accept subscriptions, and its pending queue. -/
structure WObj where
  props : List (String × Nat)
  canAttach : Bool
  pendingListeners : List PendingEntry
deriving DecidableEq, Repr

/-- The world: all objects, and the log of performed attachments
`(object, event, listener, once)`. -/
structure World where
  objs : List (Nat × WObj)
  attachments : List (Nat × String × Nat × Bool)
deriving DecidableEq, Repr

/-- Object lookup. -/
def oget (os : List (Nat × WObj)) (oid : Nat) : Option WObj :=
  (os.find? (fun p => p.1 == oid)).map (·.2)

/-- Object update in place. -/
def oset (os : List (Nat × WObj)) (oid : Nat) (o : WObj) :
    List (Nat × WObj) :=
  match os with
  | [] => [(oid, o)]
  | (i, o') :: rest =>
      if i == oid then (oid, o) :: rest else (i, o') :: oset rest oid o

/-- The pending queue reachable from an object (empty when the object does
not exist, matching an absent metadata chain). -/
def pendingOf (w : World) (oid : Nat) : List PendingEntry :=
  match oget w.objs oid with
  | none => []
  | some o => o.pendingListeners

/-- Models `target === "this" ? emitter : emitter[target]`. -/
def getProp (w : World) (oid : Nat) (target : String) : Option Nat :=
  if target = "this" then some oid
  else
    match oget w.objs oid with
    | none => none
    | some o => (o.props.find? (fun p => p.1 == target)).map (·.2)

/-- Models `_registerPendingListener(emitter, target, event, listener, once)`:
silently does nothing when the emitter is absent, otherwise appends the
entry to the emitter's pending queue. -/
def registerPendingListener (w : World) (emitter : Option Nat)
    (target event : String) (listener : Nat) (once : Bool) : World :=
  match emitter with
  | none => w
  | some oid =>
      match oget w.objs oid with
      | none => w
      | some o =>
          { w with objs := oset w.objs oid ⟨o.props, o.canAttach,
              o.pendingListeners ++ [⟨target, event, listener, once⟩]⟩ }

/-- Models `_attachListenerTo(emitter, event, listener, once)`: throws when the
emitter is absent or exposes no registration method; otherwise registers the
listener on the target (logged as an attachment). -/
def attachListenerTo (w : World) (emitter : Option Nat) (event : String)
    (listener : Nat) (once : Bool) : Except String World :=
  match emitter with
  | none => .error "Emitter is not defined."
  | some oid =>
      match oget w.objs oid with
      | none => .error "Emitter is not defined."
      | some o =>
          if o.canAttach then
            .ok { w with attachments := w.attachments ++ [(oid, event, listener, once)] }
          else .error "Emitter does not have a listener registration method."

/-- Split a character list at its first `'.'`: the characters before it, and
everything after it verbatim. -/
def chSplit : List Char → List Char × List Char
  | [] => ([], [])
  | c :: rest =>
      if c = '.' then ([], rest)
      else
        let p := chSplit rest
        (c :: p.1, p.2)

/-- Whether a character list contains `'.'`. -/
def chContainsDot : List Char → Bool
  | [] => false
  | c :: rest => c = '.' || chContainsDot rest

/-- Models `event.includes(".")`. -/
def strContainsDot (s : String) : Bool :=
  chContainsDot s.data

/-- Models `parts = event.split("."); prop = parts.shift(); rest =
parts.join(".")`: splitting at the first separator and rejoining the tail
reproduce the text before and after the first `'.'` verbatim. -/
def splitFirst (s : String) : String × String :=
  let p := chSplit s.data
  (⟨p.1⟩, ⟨p.2⟩)

/-- Outcome of the resolver: success, a propagating thrown error, or fuel
exhaustion (embedding artefact; the source can recurse unboundedly on
cyclic pending references). -/
inductive WRes (α : Type) where
  | ok : α → WRes α
  | thrown : String → WRes α
  | fuelOut : WRes α
deriving DecidableEq, Repr

/-- The two mutually recursive phases of `_applyPendingListeners`, at one
fuel level: `applyI` drains one object's queue then recurses into the
distinct dotted-path targets it touched; `loopI` is the `for...of` over the
live queue (JavaScript `Set` iteration visits entries appended during
iteration, so the queue is re-read at each index); `allI` is
`props.forEach(prop => _applyPendingListeners(prop))`. -/
structure WInterp where
  applyI : World → Option Nat → WRes World
  loopI : World → Nat → Nat → List (Option Nat) → WRes (World × List (Option Nat))
  allI : World → List (Option Nat) → WRes World

/-- Models `Set.add` on the `props` set of targets (object identities, so an
already-present target is not re-added; `undefined` can be a member). -/
def addProp (ps : List (Option Nat)) (x : Option Nat) : List (Option Nat) :=
  if ps.contains x then ps else ps ++ [x]

/-- The wiring interpreter, by structural recursion on fuel. -/
def winterp : Nat → WInterp
  | 0 =>
      ⟨fun _ _ => .fuelOut, fun _ _ _ _ => .fuelOut, fun _ _ => .fuelOut⟩
  | n + 1 =>
      let I := winterp n
      { applyI := fun w emitter =>
          match emitter with
          | none => .ok w
          | some oid =>
              match oget w.objs oid with
              | none => .ok w
              | some _ =>
                  match I.loopI w oid 0 [] with
                  | .ok (w1, props) => I.allI w1 props
                  | .thrown m => .thrown m
                  | .fuelOut => .fuelOut
        loopI := fun w oid i props =>
          match (pendingOf w oid).get? i with
          | none => .ok (w, props)
          | some entry =>
              let tp := getProp w oid entry.target
              if strContainsDot entry.event then
                let parts := splitFirst entry.event
                let w1 := registerPendingListener w tp parts.1 parts.2
                  entry.listener entry.once
                I.loopI w1 oid (i + 1) (addProp props tp)
              else
                match attachListenerTo w tp entry.event entry.listener
                    entry.once with
                | .ok w1 => I.loopI w1 oid (i + 1) props
                | .error m => .thrown m
        allI := fun w ps =>
          match ps with
          | [] => .ok w
          | p :: rest =>
              match I.applyI w p with
              | .ok w1 => I.allI w1 rest
              | .thrown m => .thrown m
              | .fuelOut => .fuelOut }

/-- Models `_applyPendingListeners(emitter)`. -/
def applyPendingListenersF (fuel : Nat) (w : World) (emitter : Option Nat) :
    WRes World :=
  (winterp fuel).applyI w emitter

/-- Attachments logged for event `ev` on object `oid`. -/
def attachedTo (w : World) (oid : Nat) (ev : String) : List Nat :=
  (w.attachments.filter (fun a => a.1 == oid ∧ a.2.1 == ev)).map (·.2.2.1)

end EEWire

namespace EESpec

/-!
Concrete scenarios used by counterexamples and witnesses.  States are built
by running the embedded public operations from a fresh instance, so every
state below is reachable by an actual call sequence on one emitter.
-/

/-- Extract the state of a completed operation (total helper for scenario
definitions; scenarios below always complete normally). -/
def okS (r : Res EmState) : EmState :=
  match r with
  | .ok s => s
  | .thrown _ s => s
  | .fuelOut => initState

/-- Extract the state component of a completed `emit`. -/
def okSB (r : Res (EmState × Bool)) : EmState :=
  match r with
  | .ok (s, _) => s
  | .thrown _ s => s
  | .fuelOut => initState

/-- The event key used by the scenarios. -/
def evKey : EventKey := .str "evt"

/-- The key `"a"`. -/
def keyA : EventKey := .str "a"

/-- The reserved meta-event keys and the error key. -/
def keyRemove : EventKey := .str "removeListener"

/-- The `"error"` key. -/
def keyError : EventKey := .str "error"

/-- The `"newListener"` meta-event key. -/
def keyNew : EventKey := .str "newListener"

/-- Environment for the snapshot scenario: listener `fn 0` unsubscribes both
itself and `fn 1` from `evKey` when invoked; `fn 1` does nothing. -/
def envMutate : Env := [[.removeA evKey (.fn 0), .removeA evKey (.fn 1)], []]

/-- State after `on("evt", fn0); on("evt", fn1)` on a fresh instance. -/
def stTwo : EmState :=
  match addListenerF envMutate 10 initState evKey (.fn 0) false with
  | .ok s =>
      match addListenerF envMutate 10 s evKey (.fn 1) false with
      | .ok s' => s'
      | _ => initState
  | _ => initState

/-- The snapshot of `evKey`'s list in `stTwo`. -/
def evListTwo : EvList := ⟨[.fn 0, .fn 1], false⟩

/-- Result of the dispatch loop over the snapshot of `stTwo`. -/
def c1Run : Res (EmState × List Fn) :=
  loopF envMutate 30 stTwo evKey [] [.fn 0, .fn 1]

/-- Final state of that dispatch. -/
def c1State : EmState :=
  match c1Run with
  | .ok (s, _) => s
  | _ => initState

/-- Entries that dispatch applied. -/
def c1Applied : List Fn :=
  match c1Run with
  | .ok (_, ap) => ap
  | _ => []

/-- The boolean returned by `emit("evt")` on `stTwo`. -/
def c2Bool : Bool :=
  match emitF envMutate 31 stTwo evKey [] with
  | .ok (_, b) => b
  | _ => false

/-- Environment for the fault scenarios: `fn 0` throws error `5`; `fn 1`
does nothing. -/
def envThrow : Env := [[.throwA 5], []]

/-- State after `on("evt", fn0); on("error", fn1)`. -/
def stThrow : EmState :=
  match addListenerF envThrow 10 initState evKey (.fn 0) false with
  | .ok s =>
      match addListenerF envThrow 10 s keyError (.fn 1) false with
      | .ok s' => s'
      | _ => initState
  | _ => initState

/-- State after `on("evt", fn0); on(errorMonitor, fn1)`. -/
def stThrowMon : EmState :=
  match addListenerF envThrow 10 initState evKey (.fn 0) false with
  | .ok s =>
      match addListenerF envThrow 10 s .errorMonitor (.fn 1) false with
      | .ok s' => s'
      | _ => initState
  | _ => initState

/-- State at the moment `fn 0` throws during dispatch on `stThrow`. -/
def thrownState : EmState :=
  match applyFnF envThrow 20 stThrow (.fn 0) evKey [] with
  | .thrown _ s => s
  | .ok s => s
  | .fuelOut => initState

/-- State after redirecting the fault to the `"error"` key. -/
def errState : EmState :=
  okSB (emitF envThrow 20 thrownState keyError [.e 5])

/-- Boolean returned by the `"error"` redirection emit. -/
def errBool : Bool :=
  match emitF envThrow 20 thrownState keyError [.e 5] with
  | .ok (_, b) => b
  | _ => false

/-- State at the moment `fn 0` throws during dispatch on `stThrowMon`. -/
def thrownMonState : EmState :=
  match applyFnF envThrow 20 stThrowMon (.fn 0) evKey [] with
  | .thrown _ s => s
  | .ok s => s
  | .fuelOut => initState

/-- State after raising the monitor key with the fault. -/
def monState : EmState :=
  okSB (emitF envThrow 20 thrownMonState .errorMonitor [.e 5])

/-- Boolean returned by the monitor emit. -/
def monBool : Bool :=
  match emitF envThrow 20 thrownMonState .errorMonitor [.e 5] with
  | .ok (_, b) => b
  | _ => false

/-- Environment with a single do-nothing listener `fn 0`. -/
def envNop : Env := [[]]

/-- State after `once("evt", fn0)` on a fresh instance. -/
def stOnce : EmState :=
  okS (addLimitedF envNop 10 initState evKey (.fn 0) 1 false)

/-- State after the first `emit("evt")` on `stOnce`. -/
def stOnceAfter : EmState :=
  okSB (emitF envNop 30 stOnce evKey [])

/-- Environment with three do-nothing listeners. -/
def envNop3 : Env := [[], [], []]

/-- State after `on("a", fn0); on("removeListener", fn2)`. -/
def stRem : EmState :=
  match addListenerF envNop3 10 initState keyA (.fn 0) false with
  | .ok s =>
      match addListenerF envNop3 10 s keyRemove (.fn 2) false with
      | .ok s' => s'
      | _ => initState
  | _ => initState

/-- State after `removeListener("a", fn1)` on `stRem` — `fn 1` was never
subscribed to `"a"`. -/
def stRemAfter : EmState :=
  okS (removeListenerF envNop3 10 stRem keyA (.fn 1))

/-- State with the per-instance ceiling set to `0` by `setMaxListeners(0)`. -/
def stZeroMax : EmState :=
  setMaxListenersF initState 0

/-- An environment in which listener id `7` does nothing. -/
def envLeaf : Env := List.replicate 8 []

/-- Emitter state of the leaf object after the wiring of scenario A below:
its `"event"` list holds exactly the attached bound method, `fn 7`. -/
def leafS : EmState :=
  { initState with events := [(.str "event", ⟨[.fn 7], false⟩)] }

/-- State after raising `"event"` on the leaf. -/
def leafS1 : EmState :=
  okSB (emitF envLeaf 30 leafS (.str "event") [])

end EESpec

namespace EEWire

/-- Scenario A for the dotted-path directive `"a.b.event"` (method id `7`):
outer object `0` has property `a` holding object `1`, which has property `b`
holding the emitter-capable object `2`; both assignments happened before the
pending queue is drained at the end of outer construction.  Object `0`'s
queue holds the entry the `on("a.b.event")` initializer registered. -/
def wA : World :=
  ⟨[(0, ⟨[("a", 1)], false, [⟨"a", "b.event", 7, false⟩]⟩),
    (1, ⟨[("b", 2)], false, []⟩),
    (2, ⟨[], true, []⟩)], []⟩

/-- Scenario B: identical, except property `a` of the outer object is still
unassigned when construction completes (it will only be assigned
afterwards). -/
def wB : World :=
  ⟨[(0, ⟨[], false, [⟨"a", "b.event", 7, false⟩]⟩),
    (1, ⟨[("b", 2)], false, []⟩),
    (2, ⟨[], true, []⟩)], []⟩

/-- Total extraction of a completed resolver run. -/
def okW (r : WRes World) : World :=
  match r with
  | .ok w => w
  | _ => ⟨[], []⟩

/-- World after draining the outer object's queue in scenario A. -/
def wA1 : World :=
  okW (applyPendingListenersF 50 wA (some 0))

/-- World after draining the outer object's queue in scenario B. -/
def wB1 : World :=
  okW (applyPendingListenersF 50 wB (some 0))

/-- Scenario B after the post-construction assignment `outer.a = mid`: a
plain property write, which runs no wiring code, so it is a pure world
update. -/
def wB2 : World :=
  { wB1 with objs := oset wB1.objs 0 ⟨[("a", 1)], false, pendingOf wB1 0⟩ }

end EEWire

namespace EEGate

/-- An object exposing every duck-typed surface but not recognised as an
instance. -/
def gFull : GObj :=
  ⟨false, true, true, true, true, true⟩

end EEGate

namespace EESpec

/-!
Equation lemmas for the fuel-indexed interpreter, and the snapshot lemma.
-/

theorem emitF_zero (env : Env) (s : EmState) (ty : EventKey)
    (args : List Val) : emitF env 0 s ty args = .fuelOut := rfl

theorem loopF_zero (env : Env) (s : EmState) (ty : EventKey) (args : List Val)
    (entries : List Fn) : loopF env 0 s ty args entries = .fuelOut := rfl

theorem loopF_nil (env : Env) (n : Nat) (s : EmState) (ty : EventKey)
    (args : List Val) : loopF env (n + 1) s ty args [] = .ok (s, []) := rfl

theorem loopF_cons (env : Env) (n : Nat) (s : EmState) (ty : EventKey)
    (args : List Val) (f : Fn) (rest : List Fn) :
    loopF env (n + 1) s ty args (f :: rest) =
      match applyFnF env n s f ty args with
      | .ok s1 =>
          match loopF env n s1 ty args rest with
          | .ok (s2, ap) => .ok (s2, f :: ap)
          | .thrown e s2 => .thrown e s2
          | .fuelOut => .fuelOut
      | .thrown e s1 =>
          if mhas s1.events (.str "error") then
            match emitF env n s1 (.str "error") [.e e] with
            | .ok (s2, _) =>
                match loopF env n s2 ty args rest with
                | .ok (s3, ap) => .ok (s3, f :: ap)
                | .thrown e2 s3 => .thrown e2 s3
                | .fuelOut => .fuelOut
            | .thrown e2 s2 => .thrown e2 s2
            | .fuelOut => .fuelOut
          else if mhas s1.events .errorMonitor then
            match emitF env n s1 .errorMonitor [.e e] with
            | .ok (s2, _) => .thrown e s2
            | .thrown e2 s2 => .thrown e2 s2
            | .fuelOut => .fuelOut
          else .thrown e s1
      | .fuelOut => .fuelOut := rfl

theorem emitF_succ (env : Env) (n : Nat) (s : EmState) (ty : EventKey)
    (args : List Val) :
    emitF env (n + 1) s ty args =
      match mget s.events ty with
      | none => .ok (s, false)
      | some l =>
          match loopF env n s ty args l.entries with
          | .ok (s1, _) => .ok (s1, true)
          | .thrown e s1 => .thrown e s1
          | .fuelOut => .fuelOut := rfl

theorem addListenerF_succ (env : Env) (n : Nat) (s : EmState) (ty : EventKey)
    (f : Fn) (p : Bool) :
    addListenerF env (n + 1) s ty f p =
      match emitF env n s (.str "newListener") [.k ty, .f f, .b p] with
      | .ok (s1, _) => .ok (pushListener s1 ty f p)
      | .thrown e s1 => .thrown e s1
      | .fuelOut => .fuelOut := rfl

theorem removeListenerF_succ (env : Env) (n : Nat) (s : EmState)
    (ty : EventKey) (f : Fn) :
    removeListenerF env (n + 1) s ty f =
      match mget s.events ty with
      | none => .ok s
      | some _ =>
          match emitF env n
              (eraseStep (resolveStep s f).1 ty (resolveStep s f).2)
              (.str "removeListener") [.k ty, .f (resolveStep s f).2] with
          | .ok (s3, _) => .ok s3
          | .thrown e s3 => .thrown e s3
          | .fuelOut => .fuelOut := rfl

theorem applyFnF_fn (env : Env) (n : Nat) (s : EmState) (id : Nat)
    (ty : EventKey) (args : List Val) :
    applyFnF env (n + 1) s (.fn id) ty args =
      runActionsF env n
        { s with trace := s.trace ++ [TEv.call (.fn id) ty args] }
        (behOf env id) := rfl

theorem runActionsF_nil (env : Env) (n : Nat) (s : EmState) :
    runActionsF env (n + 1) s [] = .ok s := rfl

/-- The dispatch loop applies exactly the entries it was given: whenever it
completes normally, the applied sequence is the input snapshot, entry for
entry and in order, independent of any state mutation performed by the
listeners along the way. -/
theorem loop_applied (env : Env) :
    ∀ (fuel : Nat) (s : EmState) (ty : EventKey) (args : List Val)
      (entries : List Fn) (s' : EmState) (ap : List Fn),
      loopF env fuel s ty args entries = .ok (s', ap) → ap = entries := by
  intro fuel
  induction fuel with
  | zero =>
      intro s ty args entries s' ap h
      rw [loopF_zero] at h
      exact absurd h (by simp)
  | succ n ih =>
      intro s ty args entries s' ap h
      cases entries with
      | nil =>
          rw [loopF_nil] at h
          simp only [Res.ok.injEq, Prod.mk.injEq] at h
          exact h.2.symm
      | cons f rest =>
          rw [loopF_cons] at h
          cases hap : applyFnF env n s f ty args with
          | ok s1 =>
              simp only [hap] at h
              cases hl : loopF env n s1 ty args rest with
              | ok pr =>
                  obtain ⟨s2, ap2⟩ := pr
                  simp only [hl, Res.ok.injEq, Prod.mk.injEq] at h
                  rw [← h.2, ih s1 ty args rest s2 ap2 hl]
              | thrown e s2 =>
                  simp only [hl] at h
                  exact absurd h (by simp)
              | fuelOut =>
                  simp only [hl] at h
                  exact absurd h (by simp)
          | thrown e s1 =>
              simp only [hap] at h
              by_cases he : mhas s1.events (.str "error") = true
              · simp only [he, if_true] at h
                cases hem : emitF env n s1 (.str "error") [.e e] with
                | ok pr2 =>
                    obtain ⟨s2, b2⟩ := pr2
                    simp only [hem] at h
                    cases hl : loopF env n s2 ty args rest with
                    | ok pr3 =>
                        obtain ⟨s3, ap3⟩ := pr3
                        simp only [hl, Res.ok.injEq, Prod.mk.injEq] at h
                        rw [← h.2, ih s2 ty args rest s3 ap3 hl]
                    | thrown e2 s3 =>
                        simp only [hl] at h
                        exact absurd h (by simp)
                    | fuelOut =>
                        simp only [hl] at h
                        exact absurd h (by simp)
                | thrown e2 s2 =>
                    simp only [hem] at h
                    exact absurd h (by simp)
                | fuelOut =>
                    simp only [hem] at h
                    exact absurd h (by simp)
              · simp only [he, if_false, Bool.not_eq_true] at h
                by_cases hm : mhas s1.events .errorMonitor = true
                · simp only [hm, if_true] at h
                  cases hem : emitF env n s1 .errorMonitor [.e e] with
                  | ok pr2 =>
                      obtain ⟨s2, b2⟩ := pr2
                      simp only [hem] at h
                      exact absurd h (by simp)
                  | thrown e2 s2 =>
                      simp only [hem] at h
                      exact absurd h (by simp)
                  | fuelOut =>
                      simp only [hem] at h
                      exact absurd h (by simp)
                · simp only [hm, if_false] at h
                  exact absurd h (by simp)
          | fuelOut =>
              simp only [hap] at h
              exact absurd h (by simp)

end EESpec

namespace EESpec

/-- C1: for every sequence of subscribe/unsubscribe calls interleaved with
raise on one emitter instance, the number of times a subscriber is invoked by
a single `raise(key)` call equals its multiplicity in the snapshot of the
key's subscription list taken at the start of that call, and mutation of the
list by earlier subscribers in the same call (including a listener
unsubscribing itself or others) does not change which subscribers that call
invokes or their order.  Formally: if `key` has list `l` at the start and the
dispatch loop over the snapshot `l.entries` completes, then the sequence of
entries the loop applied is exactly `l.entries` — entry for entry, in order
— for every listener environment (hence for arbitrary mutation behaviour),
and the surrounding `raise` returns `true` with the loop's final state. -/
theorem c1_snapshot_dispatch (env : Env) (fuel : Nat) (s : EmState)
    (ty : EventKey) (args : List Val) (l : EvList) (s' : EmState)
    (ap : List Fn) (hl : mget s.events ty = some l)
    (hrun : loopF env fuel s ty args l.entries = .ok (s', ap)) :
    ap = l.entries ∧ emitF env (fuel + 1) s ty args = .ok (s', true) := by
  refine ⟨loop_applied env fuel s ty args l.entries s' ap hrun, ?_⟩
  rw [emitF_succ]
  simp only [hl, hrun]

/-- Witness for C1: on a state with `"evt"` list `[fn 0, fn 1]`, where
`fn 0` unsubscribes both itself and `fn 1` when invoked, the dispatch still
applies `[fn 0, fn 1]` — the snapshot — and `raise` returns `true`. -/
theorem c1_snapshot_dispatch_witness :
    c1Applied = evListTwo.entries ∧
    emitF envMutate (30 + 1) stTwo evKey [] = .ok (c1State, true) :=
  c1_snapshot_dispatch envMutate 30 stTwo evKey [] evListTwo c1State c1Applied
    (by decide) (by decide)

/-- C2: `raise(key, ...args)` returns `false`, invokes no subscriber and
leaves the state unchanged (the result carries exactly the input state,
trace included) when no subscription list exists for `key`; and whenever a
list existed for `key` at the start of the call and the call returns (in
particular when a subscriber's fault was redirected to the `"error"` key,
which keeps the call returning normally, cf. C3), the returned boolean is
`true` — it is never `false`. -/
theorem c2_emit_return (env : Env) (fuel : Nat) (s : EmState) (ty : EventKey)
    (args : List Val) :
    (mget s.events ty = none → emitF env (fuel + 1) s ty args = .ok (s, false)) ∧
    (∀ l s' b, mget s.events ty = some l →
      emitF env fuel s ty args = .ok (s', b) → b = true) := by
  constructor
  · intro h
    rw [emitF_succ]
    simp only [h]
  · intro l s' b hl h
    cases fuel with
    | zero =>
        rw [emitF_zero] at h
        exact absurd h (by simp)
    | succ n =>
        rw [emitF_succ] at h
        simp only [hl] at h
        cases hrun : loopF env n s ty args l.entries with
        | ok pr =>
            obtain ⟨s1, ap⟩ := pr
            simp only [hrun, Res.ok.injEq, Prod.mk.injEq] at h
            exact h.2.symm
        | thrown e s1 =>
            simp only [hrun] at h
            exact absurd h (by simp)
        | fuelOut =>
            simp only [hrun] at h
            exact absurd h (by simp)

/-- Witness for C2: raising an unobserved key on a fresh instance returns
`false` with the state untouched; raising `"evt"` on the two-listener state
(whose first listener empties the list mid-call, and where a fault-free run
completes) returns `true`. -/
theorem c2_emit_return_witness :
    emitF envNop (0 + 1) initState evKey [] = .ok (initState, false) ∧
    c2Bool = true :=
  ⟨(c2_emit_return envNop 0 initState evKey []).1 (by decide),
   (c2_emit_return envMutate 31 stTwo evKey []).2 evListTwo c1State c2Bool
     (by decide) (by decide)⟩

/-- C3: when a subscriber throws synchronously during dispatch, the fault is
redirected.  With the throwing entry `f` at the head of the remaining
snapshot: (a) if the `"error"` key has a list at the moment of the fault,
`"error"` is raised with the fault, and — when that redirection emit and the
rest of the delivery complete — delivery continues through every remaining
snapshot entry (the applied sequence is still `f :: rest`): propagation does
not abort the call; (b) if there is no `"error"` list but the error-monitor
key has one, the monitor key is raised with the fault first and then the
original fault propagates out: the result is `thrown e` in a conclusion that
does not depend on `rest`, so none of the remaining snapshot entries is
invoked; (c) with neither, the fault propagates at once, again independently
of `rest`. -/
theorem c3_fault_redirect (env : Env) (fuel : Nat) (s : EmState)
    (ty : EventKey) (args : List Val) (f : Fn) (rest : List Fn) (e : Nat)
    (s1 : EmState) (hth : applyFnF env fuel s f ty args = .thrown e s1) :
    (∀ s2 b2 s3 ap, mhas s1.events (.str "error") = true →
      emitF env fuel s1 (.str "error") [.e e] = .ok (s2, b2) →
      loopF env fuel s2 ty args rest = .ok (s3, ap) →
      loopF env (fuel + 1) s ty args (f :: rest) = .ok (s3, f :: ap)) ∧
    (∀ s2 b2, mhas s1.events (.str "error") = false →
      mhas s1.events .errorMonitor = true →
      emitF env fuel s1 .errorMonitor [.e e] = .ok (s2, b2) →
      loopF env (fuel + 1) s ty args (f :: rest) = .thrown e s2) ∧
    (mhas s1.events (.str "error") = false →
      mhas s1.events .errorMonitor = false →
      loopF env (fuel + 1) s ty args (f :: rest) = .thrown e s1) := by
  refine ⟨?_, ?_, ?_⟩
  · intro s2 b2 s3 ap he hem hrest
    rw [loopF_cons]
    simp only [hth, he, if_true, hem, hrest]
  · intro s2 b2 he hm hem
    rw [loopF_cons]
    simp only [hth, he, hm, if_true, if_false, Bool.false_eq_true, hem]
  · intro he hm
    rw [loopF_cons]
    simp only [hth, he, hm, if_false, Bool.false_eq_true]

/-- Witness for C3, parts (a) and (b): on `stThrow` (listener `fn 0` throws
`5`, an `"error"` listener exists) delivery completes and the thrower is
still part of the applied sequence; on `stThrowMon` (monitor listener only)
the original fault `5` propagates and the non-empty remainder `[fn 1]` of
the snapshot is not invoked (the outcome does not mention it). -/
theorem c3_fault_redirect_witness :
    loopF envThrow (20 + 1) stThrow evKey [] [.fn 0] = .ok (errState, [.fn 0]) ∧
    loopF envThrow (20 + 1) stThrowMon evKey [] [.fn 0, .fn 1] =
      .thrown 5 monState :=
  ⟨(c3_fault_redirect envThrow 20 stThrow evKey [] (.fn 0) [] 5 thrownState
      (by decide)).1 errState errBool errState [] (by decide) (by decide)
      (by decide),
   (c3_fault_redirect envThrow 20 stThrowMon evKey [] (.fn 0) [.fn 1] 5
      thrownMonState (by decide)).2.1 monState monBool (by decide) (by decide)
      (by decide)⟩

end EESpec

namespace EESpec

/-- Appending a listener via the pure insertion step of `#addListener` never
records a listener invocation: the only trace event it can add is the
soft-limit diagnostic. -/
theorem traceCalls_pushListener (s : EmState) (ty : EventKey) (f : Fn)
    (p : Bool) (g : Fn) :
    traceCalls (pushListener s ty f p) g = traceCalls s g := by
  simp only [pushListener]
  split <;> split <;> split <;> simp [traceCalls, List.filter_append]

/-- C5: every registration via `#addListener` (reached from
`on`/`addListener`/`once`/`prependListener`/`prependOnceListener`) raises the
`newListener` meta-event with `(key, subscriber, prepend)` strictly before
the subscriber is inserted into the delivery list: the registration is fully
determined as the `newListener` dispatch on the *pre-insertion* state
followed by the pure insertion, so a `newListener` subscriber observes every
later registration (for any key — the dispatched payload carries the key),
while the listener being registered is not yet in any list during that
dispatch and thus never observes its own registration; in particular, when
no `newListener` list exists yet, registering invokes nobody at all. -/
theorem c5_newListener_before (env : Env) (fuel : Nat) (s : EmState)
    (ty : EventKey) (f : Fn) (p : Bool) :
    (∀ s1 b,
      emitF env fuel s (.str "newListener") [.k ty, .f f, .b p] = .ok (s1, b) →
      addListenerF env (fuel + 1) s ty f p = .ok (pushListener s1 ty f p)) ∧
    (mget s.events (.str "newListener") = none →
      addListenerF env (fuel + 1 + 1) s ty f p = .ok (pushListener s ty f p)) ∧
    (∀ g, traceCalls (pushListener s ty f p) g = traceCalls s g) := by
  refine ⟨?_, ?_, fun g => traceCalls_pushListener s ty f p g⟩
  · intro s1 b h
    rw [addListenerF_succ]
    simp only [h]
  · intro h
    rw [addListenerF_succ, emitF_succ]
    simp only [h]

/-- Witness for C5: the very first registration on a fresh instance — no
`newListener` list exists — inserts the listener with no invocation
recorded. -/
theorem c5_newListener_before_witness :
    addListenerF envNop (0 + 1 + 1) initState evKey (.fn 0) false =
      .ok (pushListener initState evKey (.fn 0) false) ∧
    traceCalls (pushListener initState evKey (.fn 0) false) (.fn 0) =
      traceCalls initState (.fn 0) :=
  ⟨(c5_newListener_before envNop 0 initState evKey (.fn 0) false).2.1
      (by decide),
   (c5_newListener_before envNop 0 initState evKey (.fn 0) false).2.2 (.fn 0)⟩

/-- C4 (code bug): `#addLimitedListener` installs the counting wrapper but
never writes the wrapper/original pair into `#onceRegistry` (the registry is
read in `#removeListener`, `#emitRemoved` and `listeners`, but no `.set`
exists anywhere), so after `once("evt", fn0)` on a fresh instance the
registry is still empty, `listeners("evt")` reports the wrapper — not the
original callable — and `removeListener("evt", fn0)` removes nothing (the
state, trace included, is returned unchanged).  The exactly-once half of the
claim does hold: the first `raise("evt")` invokes the original exactly once
and empties the list, and a second `raise("evt")` returns `false` leaving
the state unchanged, so the subscriber is invoked exactly once across any
number of raises and is absent from `listeners()` after firing. -/
theorem c4_once_registry_never_populated :
    stOnce.onceRegistry = [] ∧
    listenersF stOnce evKey = [.wrapper 0] ∧
    removeListenerF envNop 10 stOnce evKey (.fn 0) = .ok stOnce ∧
    emitF envNop 30 stOnce evKey [] = .ok (stOnceAfter, true) ∧
    traceCalls stOnceAfter (.fn 0) = 1 ∧
    listenersF stOnceAfter evKey = [] ∧
    emitF envNop 30 stOnceAfter evKey [] = .ok (stOnceAfter, false) := by
  decide

/-- C6 counterexample: on the state reached by
`on("a", fn0); on("removeListener", fn2)`, calling
`removeListener("a", fn1)` — with `fn 1` of multiplicity `0` in `"a"`'s
list — is *not* free of observable effect: the `removeListener` meta-event
is raised with `("a", fn1)` and the subscribed meta-listener `fn 2` is
invoked (the trace grows by that invocation), even though nothing was
removed (`"a"`'s listener count is still `1`). -/
theorem c6_removeListener_counterexample :
    listenerCountF stRem keyA (some (.fn 1)) = 0 ∧
    stRem.trace = [] ∧
    removeListenerF envNop3 10 stRem keyA (.fn 1) = .ok stRemAfter ∧
    stRemAfter.trace = [TEv.call (.fn 2) keyRemove [.k keyA, .f (.fn 1)]] ∧
    listenerCountF stRemAfter keyA none = 1 := by
  decide

/-- C6 (amended): `removeListener`/`off` resolves the listener through the
wrapper mapping, removes the first matching entry from the key's list, and
raises the `removeListener` meta-event with the resolved callable just after
the removal attempt; when no subscription list exists for the key at all the
call is a complete no-op (the input state is returned unchanged, so no
meta-event is observed); but whenever a list exists for the key the
meta-event is raised even if the listener was not present and nothing was
removed.  Part two: with a list present, an unregistered wrapper mapping and
no `removeListener` subscribers after the erase, the call returns exactly
the erase of the first matching occurrence.  Part three: with the listener
absent from the list and a single do-nothing `removeListener` subscriber,
the call returns the input state extended only by that subscriber's
invocation — an observable meta-event for a subscriber that was never
removed. -/
theorem c6_remove_semantics (env : Env) (fuel : Nat) (s : EmState)
    (ty : EventKey) (f : Fn) :
    (mget s.events ty = none →
      removeListenerF env (fuel + 1) s ty f = .ok s) ∧
    (∀ l, mget s.events ty = some l → rget s.onceRegistry f = none →
      mget (eraseStep s ty f).events (.str "removeListener") = none →
      removeListenerF env (fuel + 1 + 1) s ty f = .ok (eraseStep s ty f)) ∧
    (∀ l w gid, mget s.events ty = some l → rget s.onceRegistry f = none →
      l.entries.contains f = false →
      mget s.events (.str "removeListener") = some ⟨[.fn gid], w⟩ →
      behOf env gid = [] →
      removeListenerF env (fuel + 1 + 1 + 1 + 1 + 1) s ty f =
        .ok { s with trace := s.trace ++
          [TEv.call (.fn gid) (.str "removeListener") [.k ty, .f f]] }) := by
  refine ⟨?_, ?_, ?_⟩
  · intro h
    rw [removeListenerF_succ]
    simp only [h]
  · intro l h1 h2 h3
    rw [removeListenerF_succ]
    simp only [h1, resolveStep, h2, emitF_succ, h3]
  · intro l w gid h1 h2 h3 h4 h5
    have he : eraseStep s ty f = s := by
      simp only [eraseStep, h1, h3]
      simp
    rw [removeListenerF_succ]
    simp only [h1, resolveStep, h2, he, emitF_succ, h4, loopF_cons,
      applyFnF_fn, h5, runActionsF_nil, loopF_nil]

/-- Witness for C6's amendment, instantiating all three parts:
no list for `"a"` on a fresh instance (complete no-op); removal of `fn 0`
from the two-listener state with no meta-subscribers (pure erase); and the
absent-listener call on `stRem` producing exactly the meta-invocation of
`fn 2`. -/
theorem c6_remove_semantics_witness :
    removeListenerF envNop3 (0 + 1) initState keyA (.fn 0) = .ok initState ∧
    removeListenerF envMutate (0 + 1 + 1) stTwo evKey (.fn 0) =
      .ok (eraseStep stTwo evKey (.fn 0)) ∧
    removeListenerF envNop3 (5 + 1 + 1 + 1 + 1 + 1) stRem keyA (.fn 1) =
      .ok { stRem with trace := stRem.trace ++
        [TEv.call (.fn 2) (.str "removeListener") [.k keyA, .f (.fn 1)]] } :=
  ⟨(c6_remove_semantics envNop3 0 initState keyA (.fn 0)).1 (by decide),
   (c6_remove_semantics envMutate 0 stTwo evKey (.fn 0)).2.1 evListTwo
     (by decide) (by decide) (by decide),
   (c6_remove_semantics envNop3 5 stRem keyA (.fn 1)).2.2 ⟨[.fn 0], false⟩
     false 2 (by decide) (by decide) (by decide) (by decide) (by decide)⟩

/-- C9 (code bug): `listenerCount`, `eventNames` and `listeners` return
normally for a key with no registered subscribers, but `rawListeners` throws
a `TypeError` there: the source reads `.slice()` off the `undefined` result
of `#events.get(type)` and its `?? []` fallback is dead code.  All four are
reads — they take the state and return a value without modifying it. -/
theorem c9_rawListeners_crash :
    rawListenersF initState (.str "missing") = .error .typeError ∧
    listenerCountF initState (.str "missing") none = 0 ∧
    eventNamesF initState = [] ∧
    listenersF initState (.str "missing") = [] :=
  ⟨rfl, rfl, rfl, rfl⟩

/-- C10: constructing with `{ maxListeners: 0 }` does not set the
per-instance ceiling — the option is truthiness-checked, so
`getMaxListeners()` still returns the class default `10`; a post-construction
`setMaxListeners(0)` does make `getMaxListeners()` return `0`; and a ceiling
of `0` disables the soft-limit warning entirely: the insertion step then
never extends the trace (no diagnostic is emitted), for every key, listener
and prepend flag. -/
theorem c10_max_listeners_zero (s : EmState) (ty : EventKey) (f : Fn)
    (p : Bool) (h : getMaxListenersF s = 0) :
    getMaxListenersF (constructorF (some ⟨none, some 0⟩)) = 10 ∧
    getMaxListenersF (setMaxListenersF (constructorF (some ⟨none, some 0⟩)) 0) = 0 ∧
    (pushListener s ty f p).trace = s.trace := by
  refine ⟨by decide, by decide, ?_⟩
  have h' : getMax s = 0 := h
  simp [pushListener, h']

/-- Witness for C10, on the state produced by `setMaxListeners(0)`. -/
theorem c10_max_listeners_zero_witness :
    getMaxListenersF stZeroMax = 0 ∧
    (pushListener stZeroMax evKey (.fn 0) false).trace = stZeroMax.trace :=
  ⟨by decide,
   (c10_max_listeners_zero stZeroMax evKey (.fn 0) false (by decide)).2.2⟩

end EESpec

namespace EEWire

/-- C7 counterexample: with the dotted directive `"a.b.event"` queued on the
outer object but property `a` still unassigned when the outer object's
construction-time drain runs, the drain completes silently without attaching
anything (the dotted branch hands the entry to `_registerPendingListener`,
which returns silently for an absent target), the entry stays in the queue,
and nothing ever re-drains it: the later assignment `outer.a = mid` is a
plain property write that runs no wiring code, so the world after it still
has no attachment and raising `"event"` on the deepest object invokes the
annotated method zero times — not exactly once. -/
theorem c7_pending_counterexample :
    applyPendingListenersF 50 wB (some 0) = .ok wB1 ∧
    wB1.attachments = [] ∧
    pendingOf wB1 0 = [⟨"a", "b.event", 7, false⟩] ∧
    wB2.attachments = [] := by
  decide

/-- C7 (amended): when the path properties are assigned by the time the
pending queues are drained during construction, the resolver attaches the
annotated bound method exactly once to the deepest object — scenario A
yields exactly one attachment of listener `7` for `"event"` on the leaf —
and raising `"event"` on the resulting leaf emitter then invokes it exactly
once; but a path property assigned only after the outer object's
construction is never drained (see the counterexample), so the claim's
"before or after construction" independence does not hold, and queue entries
are never removed after processing. -/
theorem c7_pending_amended :
    applyPendingListenersF 50 wA (some 0) = .ok wA1 ∧
    attachedTo wA1 2 "event" = [7] ∧
    EESpec.emitF EESpec.envLeaf 30 EESpec.leafS (.str "event") [] =
      .ok (EESpec.leafS1, true) ∧
    EESpec.traceCalls EESpec.leafS1 (.fn 7) = 1 := by
  decide

end EEWire

namespace EEGate

/-- C8 counterexample: on an object exposing every registration and emission
method (but not marked as an instance), `assertIsEmitter` succeeds — both
sub-assertions pass — yet the function body has no return statement, so it
returns `undefined`, not `true` as the claim states. -/
theorem c8_assert_counterexample :
    assertIsEmitter (some gFull) = .ok .undef ∧ JsRet.undef ≠ JsRet.tru :=
  ⟨rfl, by decide⟩

/-- C8 (amended): each assertion fails with the not-defined error when the
object is absent; `assertCanRegister(obj)` returns `true` exactly when `obj`
is recognised as an EventEmitter instance or exposes `on`, `addListener` or
`addEventListener`, and fails with the not-an-emitter error otherwise;
`assertCanEmit(obj)` returns `true` exactly when `obj` is recognised as an
instance or exposes `emit` or `dispatchEvent`, and fails with the
does-not-emit error otherwise; `assertIsEmitter(obj)` checks emit-capability
first and register-capability second, failing with the first failing
assertion's error, and returns `undefined` (not `true`) when both pass. -/
theorem c8_assert_characterisation :
    assertCanRegister none = .error .notDefined ∧
    assertCanEmit none = .error .notDefined ∧
    assertIsEmitter none = .error .notDefined ∧
    ∀ x : GObj,
      (assertCanRegister (some x) =
        if x.isInstance || x.hasOn || x.hasAddListener || x.hasAddEventListener
        then .ok .tru else .error .notAnEmitter) ∧
      (assertCanEmit (some x) =
        if x.isInstance || x.hasEmit || x.hasDispatchEvent
        then .ok .tru else .error .doesNotEmit) ∧
      (assertIsEmitter (some x) =
        if x.isInstance || x.hasEmit || x.hasDispatchEvent then
          if x.isInstance || x.hasOn || x.hasAddListener || x.hasAddEventListener
          then .ok .undef else .error .notAnEmitter
        else .error .doesNotEmit) := by
  refine ⟨rfl, rfl, rfl, ?_⟩
  intro x
  obtain ⟨i, o, al, ae, em, de⟩ := x
  cases i <;> cases o <;> cases al <;> cases ae <;> cases em <;> cases de <;>
    exact ⟨rfl, rfl, rfl⟩

end EEGate
